import Mathlib

/-!
Verification of the celldb client (src/celldb/client/client.py).

The client builds SQL statement strings and issues them through a
phoenixdb cursor.  The string builders are embedded verbatim; the
backend's execution of the issued statements (an external collaborator)
is modelled from the spec (sections 4-7): a wide `Expressions` row store
keyed by sampleId, a `Features` catalog keyed by featureId, schema
alteration that fails when a column already exists, and projection
queries filtered by an IN list over sampleIds.
-/

namespace CellDb

/-- The module-level constant `DTYPE` of the source. -/
def DTYPE : String := "DECIMAL(10, 6)"

/-- Python truthiness of an optional string argument (`if featureName:`):
`None` and the empty string are falsy. -/
def pyTruthyStr : Option String → Bool
  | some s => !s.isEmpty
  | none => false

/-- Python truthiness of an optional list argument (`if featureNames:`):
`None` and the empty list are falsy. -/
def pyTruthyList : Option (List String) → Bool
  | some l => !l.isEmpty
  | none => false

/-- Python's `", ".join(xs)`. -/
def commaJoin : List String → String
  | [] => ""
  | [x] => x
  | x :: y :: rest => x ++ ", " ++ commaJoin (y :: rest)

/-- The statement of `_create_expressions_table` in the source. -/
def create_expressions_sql : String :=
  "CREATE TABLE Expressions (sampleId VARCHAR PRIMARY KEY)"

/-- The statement of `_create_features_table` in the source. -/
def create_features_sql : String :=
  "CREATE TABLE Features (featureId VARCHAR PRIMARY KEY, featureName VARCHAR)"

/-- `_feature_dtype_list` of the source: one `name DTYPE` pair per
featureId, comma separated. -/
def _feature_dtype_list (featureIds : List String) : String :=
  commaJoin (featureIds.map (fun x => x ++ " " ++ DTYPE))

/-- The statement `_alter_expressions_table` builds. -/
def alter_expressions_sql (featureIds : List String) : String :=
  "ALTER TABLE Expressions ADD " ++ _feature_dtype_list featureIds

/-- The statement `_upsert_feature` builds: the featureName column is
named only when the argument is truthy. -/
def upsert_feature_sql (featureId : String) (featureName : Option String) : String :=
  if pyTruthyStr featureName then
    "UPSERT INTO Features(featureId, featureName) VALUES ('" ++ featureId ++
      "', '" ++ featureName.getD "" ++ "')"
  else
    "UPSERT INTO Features(featureId) VALUES ('" ++ featureId ++ "')"

/-- The statement `_upsert_sample` builds. -/
def upsert_sample_sql (sampleId : String) (featureIds : List String)
    (values : List Int) : String :=
  "UPSERT INTO Expressions(sampleId, " ++ commaJoin featureIds ++
    ") VALUES ('" ++ sampleId ++ "', " ++
    commaJoin (values.map toString) ++ ")"

/-- `matrix_sql` of the source. -/
def matrix_sql (sampleIds featureIds : List String) : String :=
  "SELECT sampleId, " ++ commaJoin featureIds ++
    " from Expressions WHERE sampleId IN(" ++
    commaJoin (sampleIds.map (fun x => "'" ++ x ++ "'")) ++ ")"

/-- The statements the client issues, in structured form; `renderStmt`
gives each one the exact SQL text the source builds for it. -/
inductive Stmt where
  | createExpressions
  | createFeatures
  | alterExpressions (featureIds : List String)
  | upsertFeature (featureId : String) (featureName : Option String)
  | upsertExpr (sampleId : String) (featureIds : List String) (values : List Int)
  | selectMatrix (sampleIds featureIds : List String)
deriving Repr, DecidableEq

/-- The SQL text of a statement, exactly as the source renders it. -/
def renderStmt : Stmt → String
  | .createExpressions => create_expressions_sql
  | .createFeatures => create_features_sql
  | .alterExpressions fs => alter_expressions_sql fs
  | .upsertFeature fid name => upsert_feature_sql fid name
  | .upsertExpr sid fs vs => upsert_sample_sql sid fs vs
  | .selectMatrix ss fs => matrix_sql ss fs

/-- The cells of one Expressions row: featureId column to stored value. -/
abbrev Cells := List (String × Int)

/-- Set one cell: overwrite the column if present, append it otherwise. -/
def updCell : Cells → String → Int → Cells
  | [], f, v => [(f, v)]
  | (g, w) :: rest, f, v =>
      if g = f then (f, v) :: rest else (g, w) :: updCell rest f v

/-- Set the cells of the positionally paired columns and values. -/
def updCells : Cells → List String → List Int → Cells
  | cells, [], _ => cells
  | cells, _ :: _, [] => cells
  | cells, f :: fs, v :: vs => updCells (updCell cells f v) fs vs

/-- The stored value of a column of a row, `none` when never written. -/
def cellLookup : Cells → String → Option Int
  | [], _ => none
  | (g, w) :: rest, f => if g = f then some w else cellLookup rest f

/-- The Expressions rows in storage order: sampleId to its cells. -/
abbrev Rows := List (String × Cells)

/-- Column-level upsert of one row keyed by sampleId: named columns are
set, other columns of an existing row keep their prior values. -/
def updRow : Rows → String → List String → List Int → Rows
  | [], sid, fs, vs => [(sid, updCells [] fs vs)]
  | (t, cells) :: rest, sid, fs, vs =>
      if t = sid then (t, updCells cells fs vs) :: rest
      else (t, cells) :: updRow rest sid fs vs

/-- The Features catalog rows: featureId to its optional featureName. -/
abbrev Feats := List (String × Option String)

/-- Catalog upsert keyed by featureId: a named featureName column
overwrites, an unnamed one leaves an existing name in place. -/
def updFeat : Feats → String → Option String → Feats
  | [], fid, name => [(fid, name)]
  | (g, n) :: rest, fid, name =>
      if g = fid then (g, if name.isSome then name else n) :: rest
      else (g, n) :: updFeat rest fid name

/-- Modelled from the spec: the backend state the issued statements act
on (the phoenixdb store is an external collaborator, spec section 6) —
the two base relations, the feature columns of the row store, and the
contents of both relations. -/
structure DB where
  hasExpressions : Bool
  hasFeatures : Bool
  exprCols : List String
  exprRows : Rows
  feats : Feats
deriving Repr, DecidableEq

/-- Modelled from the spec (section 4.2): a schema alteration succeeds
exactly when the table exists, the column list is non-empty and
duplicate-free, and no named column already exists (`sampleId` always
exists as the key column). -/
def canAlter (db : DB) (featureIds : List String) : Prop :=
  db.hasExpressions = true ∧ featureIds ≠ [] ∧ featureIds.Nodup ∧
    ∀ f ∈ featureIds, f ≠ "sampleId" ∧ f ∉ db.exprCols

instance (db : DB) (featureIds : List String) : Decidable (canAlter db featureIds) := by
  unfold canAlter; infer_instance

/-- Modelled from the spec (sections 4.3 and 7): a row upsert succeeds
exactly when the table exists, the column list is non-empty,
duplicate-free, does not re-name the key column, names only existing
columns, and the value list matches it positionally. -/
def canUpsertExpr (db : DB) (featureIds : List String) (values : List Int) : Prop :=
  db.hasExpressions = true ∧ featureIds ≠ [] ∧ featureIds.Nodup ∧
    featureIds.length = values.length ∧
    ∀ f ∈ featureIds, f ≠ "sampleId" ∧ f ∈ db.exprCols

instance (db : DB) (featureIds : List String) (values : List Int) :
    Decidable (canUpsertExpr db featureIds values) := by
  unfold canUpsertExpr; infer_instance

/-- Modelled from the spec (sections 4.4 and 7) and the SQL grammar: a
projection executes exactly when the table exists, the select list and
the IN list are non-empty (an empty select item or `IN()` is a syntax
error), and every requested feature is an existing feature column
(otherwise UnknownColumn). -/
def canSelect (db : DB) (sampleIds featureIds : List String) : Prop :=
  db.hasExpressions = true ∧ sampleIds ≠ [] ∧ featureIds ≠ [] ∧
    ∀ f ∈ featureIds, f ∈ db.exprCols

instance (db : DB) (sampleIds featureIds : List String) :
    Decidable (canSelect db sampleIds featureIds) := by
  unfold canSelect; infer_instance

/-- The featureName value a catalog upsert writes: the name when the
statement names the featureName column (truthy argument), nothing
otherwise. -/
def writtenName (name : Option String) : Option String :=
  if pyTruthyStr name then name else none

/-- Modelled from the spec (sections 4-7): the effect of one issued
statement on the backend state, or the error the backend raises. -/
def execDB (db : DB) : Stmt → Except String DB
  | .createExpressions =>
      if db.hasExpressions then .error "TableAlreadyExists: Expressions"
      else .ok { db with hasExpressions := true }
  | .createFeatures =>
      if db.hasFeatures then .error "TableAlreadyExists: Features"
      else .ok { db with hasFeatures := true }
  | .alterExpressions fs =>
      if canAlter db fs then .ok { db with exprCols := db.exprCols ++ fs }
      else .error "SchemaConflict"
  | .upsertFeature fid name =>
      if db.hasFeatures then
        .ok { db with feats := updFeat db.feats fid (writtenName name) }
      else .error "TableUndefined: Features"
  | .upsertExpr sid fs vs =>
      if canUpsertExpr db fs vs then
        .ok { db with exprRows := updRow db.exprRows sid fs vs }
      else .error "UpsertFailed"
  | .selectMatrix ss fs =>
      if canSelect db ss fs then .ok db
      else .error "MalformedQueryOrUnknownColumn"

/-- Modelled from the spec (section 4.4): the rows a projection returns —
the stored rows whose sampleId is in the requested set, in storage
order, each rendered as the sampleId followed by the requested feature
columns' values positionally (NULL for a never-written cell). -/
def runMatrix (db : DB) (sampleIds featureIds : List String) :
    List (String × List (Option Int)) :=
  (db.exprRows.filter (fun r => sampleIds.contains r.1)).map
    (fun r => (r.1, featureIds.map (fun f => cellLookup r.2 f)))

/-- A phoenixdb cursor as the client sees it: the backend state it acts
on, plus the list of SQL statements issued through it so far. -/
structure Cursor where
  db : DB
  trace : List String
deriving Repr, DecidableEq

/-- The outcome of a client call: the cursor afterwards, and the
exception it raised, if any (`none` = returned normally).  An exception
does not undo statements already executed (autocommit, spec section 5). -/
structure Res where
  cur : Cursor
  err : Option String
deriving Repr, DecidableEq

/-- `cursor.execute(sql)`: the statement is issued (recorded in the
trace) and either takes effect or raises the backend's error. -/
def execute (c : Cursor) (s : Stmt) : Res :=
  match execDB c.db s with
  | .ok db1 => ⟨⟨db1, c.trace ++ [renderStmt s]⟩, none⟩
  | .error e => ⟨⟨c.db, c.trace ++ [renderStmt s]⟩, some e⟩

/-- Sequencing of client statements: a raised exception aborts the rest
of the call and propagates. -/
def Res.andThen (r : Res) (f : Cursor → Res) : Res :=
  match r.err with
  | some _ => r
  | none => f r.cur

/-- `_create_expressions_table` of the source. -/
def _create_expressions_table (c : Cursor) : Res :=
  execute c .createExpressions

/-- `_create_features_table` of the source. -/
def _create_features_table (c : Cursor) : Res :=
  execute c .createFeatures

/-- `_upsert_feature` of the source. -/
def _upsert_feature (c : Cursor) (featureId : String)
    (featureName : Option String := none) : Res :=
  execute c (.upsertFeature featureId featureName)

/-- `_alter_expressions_table` of the source. -/
def _alter_expressions_table (c : Cursor) (featureIds : List String) : Res :=
  execute c (.alterExpressions featureIds)

/-- `_upsert_sample` of the source. -/
def _upsert_sample (c : Cursor) (sampleId : String) (featureIds : List String)
    (values : List Int) : Res :=
  execute c (.upsertExpr sampleId featureIds values)

/-- `upsert_feature` of the source. -/
def upsert_feature (c : Cursor) (featureId : String)
    (featureName : Option String := none) : Res :=
  (_alter_expressions_table c [featureId]).andThen fun c1 =>
    _upsert_feature c1 featureId featureName

/-- The per-feature loop bodies of `_upsert_features`: upsert each pair
in order, aborting on a raised exception. -/
def upsertFeatureList (c : Cursor) : List (String × Option String) → Res
  | [] => ⟨c, none⟩
  | (fid, name) :: rest =>
      (_upsert_feature c fid name).andThen fun c1 => upsertFeatureList c1 rest

/-- `_upsert_features` of the source: zip loop when `featureNames` is
truthy and the lengths match, a raised Exception when it is truthy and
they do not, nameless loop otherwise. -/
def _upsert_features (c : Cursor) (featureIds : List String)
    (featureNames : Option (List String) := none) : Res :=
  if pyTruthyList featureNames &&
      featureIds.length == (featureNames.getD []).length then
    upsertFeatureList c (featureIds.zip ((featureNames.getD []).map some))
  else if pyTruthyList featureNames then
    ⟨c, some "list of featureIds and featureNames did not match"⟩
  else
    upsertFeatureList c (featureIds.map (fun fid => (fid, none)))

/-- `upsert_features` of the source. -/
def upsert_features (c : Cursor) (featureIds : List String)
    (featureNames : Option (List String) := none) : Res :=
  (_alter_expressions_table c featureIds).andThen fun c1 =>
    _upsert_features c1 featureIds featureNames

/-- `upsert_sample` of the source. -/
def upsert_sample (c : Cursor) (sampleId : String) (featureIds : List String)
    (values : List Int) (add_features : Bool := true) : Res :=
  if add_features then
    (_alter_expressions_table c featureIds).andThen fun c1 =>
      (_upsert_features c1 featureIds none).andThen fun c2 =>
        _upsert_sample c2 sampleId featureIds values
  else
    _upsert_sample c sampleId featureIds values

/-- The `for k, sampleId in enumerate(sampleIds)` loop of
`upsert_samples`: `vectors[k]` raises IndexError past the end. -/
def upsertSampleRows (c : Cursor) (featureIds : List String) :
    List String → List (List Int) → Nat → Res
  | [], _, _ => ⟨c, none⟩
  | sid :: rest, vectors, k =>
      match vectors[k]? with
      | none => ⟨c, some "IndexError: list index out of range"⟩
      | some vec =>
          (_upsert_sample c sid featureIds vec).andThen fun c1 =>
            upsertSampleRows c1 featureIds rest vectors (k + 1)

/-- `upsert_samples` of the source. -/
def upsert_samples (c : Cursor) (sampleIds : List String)
    (featureIds : List String) (vectors : List (List Int)) : Res :=
  (_alter_expressions_table c featureIds).andThen fun c1 =>
    (_upsert_features c1 featureIds none).andThen fun c2 =>
      upsertSampleRows c2 featureIds sampleIds vectors 0

/-- The result of `matrix`: the cursor, a raised error if any, and the
fetched rows (empty when the query failed). -/
structure FetchRes where
  cur : Cursor
  err : Option String
  rows : List (String × List (Option Int))
deriving Repr, DecidableEq

/-- `matrix` of the source: execute `matrix_sql` and fetch all rows. -/
def matrix (c : Cursor) (sampleIds featureIds : List String) : FetchRes :=
  let r := execute c (.selectMatrix sampleIds featureIds)
  match r.err with
  | none => ⟨r.cur, none, runMatrix c.db sampleIds featureIds⟩
  | some e => ⟨r.cur, some e, []⟩

/-- `_safe_fn` of the source: run the call, swallow any exception. -/
def _safe_fn (fn : Cursor → Res) (c : Cursor) : Res :=
  let r := fn c
  ⟨r.cur, none⟩

/-- `initialize` of the source (renamed: `initialize` is a Lean
keyword): both creation attempts, each wrapped in `_safe_fn`. -/
def initializeTables (connection : Cursor) : Res :=
  let r1 := _safe_fn _create_expressions_table connection
  _safe_fn _create_features_table r1.cur

/-- A backend with neither relation yet. -/
def emptyDB : DB := ⟨false, false, [], [], []⟩

/-- A cursor over the empty backend, with an empty trace. -/
def cursor0 : Cursor := ⟨emptyDB, []⟩

/-- The cursor after `initialize` ran against the empty backend. -/
def cursorInit : Cursor := (initializeTables cursor0).cur

/-- A structured projection query: the selected columns in order, and
the sampleId keys of the IN filter. -/
structure SelectQuery where
  cols : List String
  keys : List String
deriving Repr, DecidableEq

/-- Modelled from the spec (section 4.4): rendering of a projection that
selects `cols` in order restricted to the keyed rows. -/
def SelectQuery.render (q : SelectQuery) : String :=
  "SELECT " ++ commaJoin q.cols ++
    " from Expressions WHERE sampleId IN(" ++
    commaJoin (q.keys.map (fun x => "'" ++ x ++ "'")) ++ ")"

/-- Modelled from the spec (section 4.4): `buildProjection` selects
`sampleId` plus each requested feature column in caller-supplied order,
restricted to rows whose sampleId is in the given set. -/
def buildProjection (sampleIds featureIds : List String) : SelectQuery :=
  ⟨"sampleId" :: featureIds, sampleIds⟩

/-! ## General lemmas about the execution model -/

theorem execute_trace (c : Cursor) (s : Stmt) :
    (execute c s).cur.trace = c.trace ++ [renderStmt s] := by
  unfold execute
  cases execDB c.db s <;> rfl

theorem Res.andThen_none {r : Res} (f : Cursor → Res) (h : r.err = none) :
    r.andThen f = f r.cur := by
  unfold Res.andThen
  rw [h]

theorem Res.andThen_some {r : Res} (f : Cursor → Res) {e : String}
    (h : r.err = some e) : r.andThen f = r := by
  unfold Res.andThen
  rw [h]

theorem commaJoin_cons (x : String) {ys : List String} (h : ys ≠ []) :
    commaJoin (x :: ys) = x ++ ", " ++ commaJoin ys := by
  cases ys with
  | nil => exact absurd rfl h
  | cons y rest => rfl

theorem upsertFeatureList_run (ps : List (String × Option String)) :
    ∀ c : Cursor, c.db.hasFeatures = true →
      (upsertFeatureList c ps).err = none ∧
      (upsertFeatureList c ps).cur.trace =
        c.trace ++ ps.map (fun p => upsert_feature_sql p.1 p.2) ∧
      (upsertFeatureList c ps).cur.db.hasExpressions = c.db.hasExpressions ∧
      (upsertFeatureList c ps).cur.db.hasFeatures = c.db.hasFeatures ∧
      (upsertFeatureList c ps).cur.db.exprCols = c.db.exprCols ∧
      (upsertFeatureList c ps).cur.db.exprRows = c.db.exprRows := by
  induction ps with
  | nil => intro c h; simp [upsertFeatureList]
  | cons p rest ih =>
      intro c h
      obtain ⟨fid, name⟩ := p
      have hstep : _upsert_feature c fid name =
          ⟨⟨{ c.db with feats := updFeat c.db.feats fid (writtenName name) },
            c.trace ++ [upsert_feature_sql fid name]⟩, none⟩ := by
        simp [_upsert_feature, execute, execDB, renderStmt, h]
      have hrec := ih ⟨{ c.db with feats := updFeat c.db.feats fid (writtenName name) },
          c.trace ++ [upsert_feature_sql fid name]⟩ h
      simp only [upsertFeatureList, hstep, Res.andThen]
      simp at hrec ⊢
      refine ⟨hrec.1, ?_, hrec.2.2.1, hrec.2.2.2.1, hrec.2.2.2.2.1, hrec.2.2.2.2.2⟩
      rw [hrec.2.1]

theorem cellLookup_updCell_self (cells : Cells) (f : String) (v : Int) :
    cellLookup (updCell cells f v) f = some v := by
  induction cells with
  | nil => simp [updCell, cellLookup]
  | cons p rest ih =>
      obtain ⟨g, w⟩ := p
      by_cases hg : g = f
      · simp [updCell, hg, cellLookup]
      · simp [updCell, hg, cellLookup, ih]

theorem cellLookup_updCell_ne (cells : Cells) {f g : String} (v : Int)
    (h : g ≠ f) : cellLookup (updCell cells f v) g = cellLookup cells g := by
  induction cells with
  | nil => simp [updCell, cellLookup, Ne.symm h]
  | cons p rest ih =>
      obtain ⟨t, w⟩ := p
      by_cases ht : t = f
      · subst ht
        simp [updCell, cellLookup, Ne.symm h]
      · simp [updCell, ht, cellLookup, ih]

theorem cellLookup_updCells_not_mem (fs : List String) :
    ∀ (vs : List Int) (cells : Cells) (g : String), g ∉ fs →
      cellLookup (updCells cells fs vs) g = cellLookup cells g := by
  induction fs with
  | nil => intro vs cells g _; cases vs <;> rfl
  | cons f rest ih =>
      intro vs cells g hg
      cases vs with
      | nil => rfl
      | cons v vtl =>
          have hgf : g ≠ f := fun e => hg (e ▸ List.mem_cons_self f rest)
          have hgrest : g ∉ rest := fun e => hg (List.mem_cons_of_mem f e)
          calc cellLookup (updCells (updCell cells f v) rest vtl) g
              = cellLookup (updCell cells f v) g := ih vtl (updCell cells f v) g hgrest
            _ = cellLookup cells g := cellLookup_updCell_ne cells v hgf

theorem map_cellLookup_updCells (fs : List String) :
    ∀ (vs : List Int) (cells : Cells), fs.Nodup → fs.length = vs.length →
      fs.map (cellLookup (updCells cells fs vs)) = vs.map some := by
  induction fs with
  | nil =>
      intro vs cells _ hlen
      cases vs with
      | nil => rfl
      | cons v vtl => simp at hlen
  | cons f rest ih =>
      intro vs cells hnd hlen
      cases vs with
      | nil => simp at hlen
      | cons v vtl =>
          have hf : f ∉ rest := (List.nodup_cons.mp hnd).1
          have hnd' : rest.Nodup := (List.nodup_cons.mp hnd).2
          have hlen' : rest.length = vtl.length := by simpa using hlen
          simp only [updCells, List.map_cons]
          rw [cellLookup_updCells_not_mem rest vtl (updCell cells f v) f hf,
            cellLookup_updCell_self, ih vtl (updCell cells f v) hnd' hlen']

theorem alter_ok {c : Cursor} {fs : List String} (h : canAlter c.db fs) :
    _alter_expressions_table c fs =
      ⟨⟨{ c.db with exprCols := c.db.exprCols ++ fs },
        c.trace ++ [alter_expressions_sql fs]⟩, none⟩ := by
  simp [_alter_expressions_table, execute, execDB, renderStmt, h]

theorem upsert_expr_ok {c : Cursor} {sid : String} {fs : List String}
    {vs : List Int} (h : canUpsertExpr c.db fs vs) :
    _upsert_sample c sid fs vs =
      ⟨⟨{ c.db with exprRows := updRow c.db.exprRows sid fs vs },
        c.trace ++ [upsert_sample_sql sid fs vs]⟩, none⟩ := by
  simp [_upsert_sample, execute, execDB, renderStmt, h]

theorem upsert_sample_stmt_frame (c : Cursor) (sid : String) (fs : List String)
    (vs : List Int) :
    (_upsert_sample c sid fs vs).cur.trace = c.trace ++ [upsert_sample_sql sid fs vs] ∧
    (_upsert_sample c sid fs vs).cur.db.hasExpressions = c.db.hasExpressions ∧
    (_upsert_sample c sid fs vs).cur.db.hasFeatures = c.db.hasFeatures ∧
    (_upsert_sample c sid fs vs).cur.db.exprCols = c.db.exprCols ∧
    (_upsert_sample c sid fs vs).cur.db.feats = c.db.feats := by
  by_cases h : canUpsertExpr c.db fs vs <;>
    simp [_upsert_sample, execute, execDB, renderStmt, h]

/-! ## The claims -/

/-- C10: a provided featureName whose value is falsy (the empty string)
is treated by `_upsert_feature` — and hence by `upsert_feature` —
exactly as an absent name: the issued catalog upsert omits the
featureName column entirely. -/
theorem C10_falsy_name_omitted :
    (∀ (c : Cursor) (fid : String) (name : Option String),
        pyTruthyStr name = false →
        _upsert_feature c fid name = _upsert_feature c fid none) ∧
    (∀ (c : Cursor) (fid : String) (name : Option String),
        pyTruthyStr name = false →
        upsert_feature c fid name = upsert_feature c fid none) := by
  have hnone : pyTruthyStr none = false := rfl
  have base : ∀ (c : Cursor) (fid : String) (name : Option String),
      pyTruthyStr name = false →
      _upsert_feature c fid name = _upsert_feature c fid none := by
    intro c fid name h
    simp [_upsert_feature, execute, execDB, renderStmt, upsert_feature_sql,
      writtenName, h, hnone]
  refine ⟨base, fun c fid name h => ?_⟩
  unfold upsert_feature
  rw [funext fun c1 => base c1 fid name h]

/-- C10 witness: the empty string as featureName behaves as no name at
a concrete input. -/
theorem C10_falsy_name_omitted_witness :
    _upsert_feature cursorInit "g" (some "") = _upsert_feature cursorInit "g" none :=
  C10_falsy_name_omitted.1 cursorInit "g" (some "") rfl

/-- C5: for a non-empty featureIds list, `_alter_expressions_table`
issues exactly one ALTER statement against the row store, holding one
comma-separated `name TYPE` pair per featureId, with the same constant
fixed-precision decimal type for every column. -/
theorem C5_alter_single_statement (c : Cursor) (fs : List String) (_h : fs ≠ []) :
    (_alter_expressions_table c fs).cur.trace =
      c.trace ++ ["ALTER TABLE Expressions ADD " ++
        commaJoin (fs.map (fun f => f ++ " " ++ "DECIMAL(10, 6)"))] ∧
    (fs.map (fun f => f ++ " " ++ "DECIMAL(10, 6)")).length = fs.length := by
  constructor
  · show (execute c (.alterExpressions fs)).cur.trace = _
    rw [execute_trace]
    rfl
  · simp

/-- C5 witness: the single ALTER statement at a concrete input. -/
theorem C5_alter_single_statement_witness :
    (_alter_expressions_table cursorInit ["g1", "g2"]).cur.trace =
      cursorInit.trace ++ ["ALTER TABLE Expressions ADD " ++
        commaJoin (["g1", "g2"].map (fun f => f ++ " " ++ "DECIMAL(10, 6)"))] ∧
    ((["g1", "g2"] : List String).map (fun f => f ++ " " ++ "DECIMAL(10, 6)")).length =
      (["g1", "g2"] : List String).length :=
  C5_alter_single_statement cursorInit ["g1", "g2"] (by decide)

/-- C8: for every cursor state — in particular whether or not either
creation attempt fails because its relation already exists — the
initialization entry point never raises, both creation statements are
issued (a failure of the first does not prevent the second), and both
relations exist afterwards. -/
theorem C8_initialize_never_raises (c : Cursor) :
    (initializeTables c).err = none ∧
    (initializeTables c).cur.trace =
      c.trace ++ [create_expressions_sql, create_features_sql] ∧
    (initializeTables c).cur.db.hasExpressions = true ∧
    (initializeTables c).cur.db.hasFeatures = true := by
  obtain ⟨⟨he, hf, cols, rows, feats⟩, tr⟩ := c
  cases he <;> cases hf <;>
    simp [initializeTables, _safe_fn, _create_expressions_table,
      _create_features_table, execute, execDB, renderStmt]

/-- C3 as stated fails at an empty featureIds list: the built query is
not the rendering of the projection that selects just the key column
(it keeps a dangling comma after `sampleId`). -/
theorem C3_counterexample :
    matrix_sql ["s1"] [] ≠ (buildProjection ["s1"] []).render := by
  decide

/-- C3 (amended: featureIds non-empty): the query `matrix_sql` builds is
exactly the rendering of the projection selecting `sampleId` followed by
the featureIds in caller-supplied order, restricted by an IN filter over
the sampleIds; and every row `matrix` returns has its sampleId in the
requested set. -/
theorem C3_projection_shape (ss fs : List String) (h : fs ≠ []) :
    matrix_sql ss fs = (buildProjection ss fs).render ∧
    ∀ (c : Cursor) (r : String × List (Option Int)),
      r ∈ (matrix c ss fs).rows → r.1 ∈ ss := by
  constructor
  · have key : ∀ x : String,
        "SELECT sampleId, " ++ x = "SELECT " ++ ("sampleId" ++ (", " ++ x)) := by
      intro x
      rw [← String.append_assoc, ← String.append_assoc]
      congr 1
    simp only [matrix_sql, SelectQuery.render, buildProjection,
      commaJoin_cons "sampleId" h, String.append_assoc, key]
  · intro c r hr
    rcases hdef : (execute c (.selectMatrix ss fs)).err with _ | e <;>
      simp only [matrix, hdef] at hr
    · obtain ⟨r', hr', rfl⟩ := List.mem_map.mp hr
      have hmem := (List.mem_filter.mp hr').2
      simpa using hmem
    · simp at hr

/-- C3 witness: the projection shape at a concrete input. -/
theorem C3_projection_shape_witness :
    matrix_sql ["s1", "s2"] ["g1", "g2"] =
      (buildProjection ["s1", "s2"] ["g1", "g2"]).render ∧
    ∀ (c : Cursor) (r : String × List (Option Int)),
      r ∈ (matrix c ["s1", "s2"] ["g1", "g2"]).rows → r.1 ∈ ["s1", "s2"] :=
  C3_projection_shape ["s1", "s2"] ["g1", "g2"] (by decide)

/-- C4 as stated fails: with an empty featureIds list the built query is
not well-formed (dangling comma in the select list) and executing it
raises instead of returning a key-only row set. -/
theorem C4_counterexample :
    (matrix ⟨⟨true, true, ["f1"], [("s1", [("f1", 5)])], [("f1", none)]⟩, []⟩
        ["s1"] []).err ≠ none ∧
    matrix_sql ["s1"] [] =
      "SELECT sampleId,  from Expressions WHERE sampleId IN('s1')" := by
  exact ⟨by decide, rfl⟩

/-- C4 (amended): `matrix_sql` never raises at build time (it is a total
string function), but an empty sampleIds list yields a query with an
empty `IN()` operand list and an empty featureIds list one with an empty
select-list item, neither syntactically valid, so executing them raises
and returns no rows rather than zero rows / key-only rows. -/
theorem C4_empty_inputs (c : Cursor) (ss fs : List String)
    (h : ss = [] ∨ fs = []) :
    ((matrix c ss fs).err.isSome = true ∧ (matrix c ss fs).rows = []) ∧
    matrix_sql [] ["f1"] = "SELECT sampleId, f1 from Expressions WHERE sampleId IN()" ∧
    matrix_sql ["s1"] [] = "SELECT sampleId,  from Expressions WHERE sampleId IN('s1')" := by
  have hno : ¬ canSelect c.db ss fs := by
    rcases h with h | h <;> simp [canSelect, h]
  refine ⟨?_, rfl, rfl⟩
  simp [matrix, execute, execDB, hno]

/-- C4 witness: the empty-sampleIds case at a concrete input. -/
theorem C4_empty_inputs_witness :
    (((matrix cursorInit [] ["f1"]).err.isSome = true ∧
      (matrix cursorInit [] ["f1"]).rows = []) ∧
    matrix_sql [] ["f1"] = "SELECT sampleId, f1 from Expressions WHERE sampleId IN()" ∧
    matrix_sql ["s1"] [] = "SELECT sampleId,  from Expressions WHERE sampleId IN('s1')") :=
  C4_empty_inputs cursorInit [] ["f1"] (Or.inl rfl)

/-- C2 as stated fails: the arity mismatch is detected and raised, and
no catalog write is issued, but only after the schema-alteration
statement has already been issued to the backend — the trace is not
unchanged. -/
theorem C2_counterexample :
    (upsert_features cursorInit ["f1", "f2"] (some ["n1"])).err =
      some "list of featureIds and featureNames did not match" ∧
    (upsert_features cursorInit ["f1", "f2"] (some ["n1"])).cur.trace ≠
      cursorInit.trace ∧
    (upsert_features cursorInit ["f1", "f2"] (some ["n1"])).cur.trace =
      cursorInit.trace ++ [alter_expressions_sql ["f1", "f2"]] := by
  refine ⟨rfl, by decide, rfl⟩

/-- C2 (amended): when featureNames is provided non-empty with a length
differing from featureIds and the schema alteration succeeds, the call
raises the arity-mismatch exception and performs no catalog write for
the batch; the schema-alteration statement, however, has already been
issued before the validation. -/
theorem C2_arity_mismatch (c : Cursor) (fs ns : List String)
    (hn : ns ≠ []) (hlen : fs.length ≠ ns.length) (halter : canAlter c.db fs) :
    (upsert_features c fs (some ns)).err =
      some "list of featureIds and featureNames did not match" ∧
    (upsert_features c fs (some ns)).cur.trace =
      c.trace ++ [alter_expressions_sql fs] ∧
    (upsert_features c fs (some ns)).cur.db.feats = c.db.feats := by
  have htruthy : pyTruthyList (some ns) = true := by
    simp [pyTruthyList, hn]
  unfold upsert_features
  rw [alter_ok halter]
  simp [Res.andThen, _upsert_features, htruthy, hlen]

/-- C2 witness: the amended behaviour at a concrete input. -/
theorem C2_arity_mismatch_witness :
    (upsert_features cursorInit ["g1", "g2"] (some ["n1"])).err =
      some "list of featureIds and featureNames did not match" ∧
    (upsert_features cursorInit ["g1", "g2"] (some ["n1"])).cur.trace =
      cursorInit.trace ++ [alter_expressions_sql ["g1", "g2"]] ∧
    (upsert_features cursorInit ["g1", "g2"] (some ["n1"])).cur.db.feats =
      cursorInit.db.feats :=
  C2_arity_mismatch cursorInit ["g1", "g2"] ["n1"] (by decide) (by decide) (by decide)

theorem upsert_features_none_run (c : Cursor) (fs : List String)
    (h : c.db.hasFeatures = true) :
    (_upsert_features c fs none).err = none ∧
    (_upsert_features c fs none).cur.trace =
      c.trace ++ fs.map (fun f => upsert_feature_sql f none) ∧
    (_upsert_features c fs none).cur.db.hasExpressions = c.db.hasExpressions ∧
    (_upsert_features c fs none).cur.db.hasFeatures = c.db.hasFeatures ∧
    (_upsert_features c fs none).cur.db.exprCols = c.db.exprCols ∧
    (_upsert_features c fs none).cur.db.exprRows = c.db.exprRows := by
  have hdef : _upsert_features c fs none =
      upsertFeatureList c (fs.map (fun fid => (fid, none))) := rfl
  have base := upsertFeatureList_run (fs.map (fun fid => (fid, none))) c h
  rw [hdef]
  simpa using base

theorem matrix_ok {c : Cursor} {ss fs : List String} (h : canSelect c.db ss fs) :
    matrix c ss fs = ⟨⟨c.db, c.trace ++ [matrix_sql ss fs]⟩, none,
      runMatrix c.db ss fs⟩ := by
  simp [matrix, execute, execDB, renderStmt, h]

theorem alter_ok_fields {c : Cursor} {fs : List String} (h : canAlter c.db fs) :
    (_alter_expressions_table c fs).err = none ∧
    (_alter_expressions_table c fs).cur.trace = c.trace ++ [alter_expressions_sql fs] ∧
    (_alter_expressions_table c fs).cur.db.hasExpressions = c.db.hasExpressions ∧
    (_alter_expressions_table c fs).cur.db.hasFeatures = c.db.hasFeatures ∧
    (_alter_expressions_table c fs).cur.db.exprCols = c.db.exprCols ++ fs ∧
    (_alter_expressions_table c fs).cur.db.exprRows = c.db.exprRows ∧
    (_alter_expressions_table c fs).cur.db.feats = c.db.feats := by
  simp [_alter_expressions_table, execute, execDB, renderStmt, h]

theorem upsert_expr_ok_fields {c : Cursor} (sid : String) {fs : List String}
    {vs : List Int} (h : canUpsertExpr c.db fs vs) :
    (_upsert_sample c sid fs vs).err = none ∧
    (_upsert_sample c sid fs vs).cur.db.exprRows =
      updRow c.db.exprRows sid fs vs := by
  simp [_upsert_sample, execute, execDB, renderStmt, h]

/-- C6: with `add_features = true` (its default), `upsert_sample` first
issues the schema alteration for featureIds, then registers each
featureId in the catalog with its name omitted, then issues the
sample-row write — in that order; with `add_features = false` only the
sample-row write is issued, and neither the schema columns nor the
catalog change. -/
theorem C6_upsert_sample_order :
    (∀ (c : Cursor) (sid : String) (fs : List String) (vs : List Int),
        canAlter c.db fs → c.db.hasFeatures = true →
        (upsert_sample c sid fs vs true).cur.trace =
          c.trace ++ [alter_expressions_sql fs] ++
            fs.map (fun f => upsert_feature_sql f none) ++
            [upsert_sample_sql sid fs vs]) ∧
    (∀ (c : Cursor) (sid : String) (fs : List String) (vs : List Int),
        (upsert_sample c sid fs vs false).cur.trace =
          c.trace ++ [upsert_sample_sql sid fs vs] ∧
        (upsert_sample c sid fs vs false).cur.db.exprCols = c.db.exprCols ∧
        (upsert_sample c sid fs vs false).cur.db.feats = c.db.feats) := by
  constructor
  · intro c sid fs vs hA hF
    show ((_alter_expressions_table c fs).andThen fun c1 =>
        (_upsert_features c1 fs none).andThen fun c2 =>
          _upsert_sample c2 sid fs vs).cur.trace = _
    have ha := alter_ok_fields hA
    rw [Res.andThen_none _ ha.1]
    have hf := upsert_features_none_run (_alter_expressions_table c fs).cur fs
      (by rw [ha.2.2.2.1]; exact hF)
    rw [Res.andThen_none _ hf.1, (upsert_sample_stmt_frame _ sid fs vs).1,
      hf.2.1, ha.2.1]
  · intro c sid fs vs
    have hframe := upsert_sample_stmt_frame c sid fs vs
    exact ⟨hframe.1, hframe.2.2.2.1, hframe.2.2.2.2⟩

/-- C6 witness: the statement order at a concrete input. -/
theorem C6_upsert_sample_order_witness :
    (upsert_sample cursorInit "s1" ["g1", "g2"] [3, 7] true).cur.trace =
      cursorInit.trace ++ [alter_expressions_sql ["g1", "g2"]] ++
        ["g1", "g2"].map (fun f => upsert_feature_sql f none) ++
        [upsert_sample_sql "s1" ["g1", "g2"] [3, 7]] :=
  C6_upsert_sample_order.1 cursorInit "s1" ["g1", "g2"] [3, 7] (by decide) rfl

theorem upsertSampleRows_ok (sids : List String) :
    ∀ (c : Cursor) (k : Nat) (vectors : List (List Int)) (fs : List String),
      c.db.hasExpressions = true → fs ≠ [] → fs.Nodup →
      (∀ f ∈ fs, f ≠ "sampleId" ∧ f ∈ c.db.exprCols) →
      k + sids.length ≤ vectors.length →
      (∀ v ∈ vectors, v.length = fs.length) →
      (upsertSampleRows c fs sids vectors k).err = none ∧
      (upsertSampleRows c fs sids vectors k).cur.trace =
        c.trace ++ List.zipWith (fun sid vec => upsert_sample_sql sid fs vec)
          sids (vectors.drop k) ∧
      (upsertSampleRows c fs sids vectors k).cur.db.exprCols = c.db.exprCols ∧
      (upsertSampleRows c fs sids vectors k).cur.db.hasExpressions = c.db.hasExpressions ∧
      (upsertSampleRows c fs sids vectors k).cur.db.hasFeatures = c.db.hasFeatures ∧
      (upsertSampleRows c fs sids vectors k).cur.db.feats = c.db.feats := by
  induction sids with
  | nil =>
      intro c k vectors fs _ _ _ _ _ _
      simp [upsertSampleRows]
  | cons sid rest ih =>
      intro c k vectors fs hE hne hnd hcols hlen hvlen
      have hk : k < vectors.length := by
        simp only [List.length_cons] at hlen
        omega
      have hvk : vectors[k]? = some vectors[k] := List.getElem?_eq_getElem hk
      have hcan : canUpsertExpr c.db fs vectors[k] :=
        ⟨hE, hne, hnd, (hvlen _ (List.getElem_mem hk)).symm, hcols⟩
      have hdrop : vectors.drop k = vectors[k] :: vectors.drop (k + 1) :=
        List.drop_eq_getElem_cons hk
      have hframe := upsert_sample_stmt_frame c sid fs vectors[k]
      simp only [upsertSampleRows, hvk]
      rw [Res.andThen_none _ (upsert_expr_ok_fields sid hcan).1]
      have hrec := ih (_upsert_sample c sid fs vectors[k]).cur (k + 1) vectors fs
        (by rw [hframe.2.1]; exact hE)
        hne hnd
        (by rw [hframe.2.2.2.1]; exact hcols)
        (by simp only [List.length_cons] at hlen; omega) hvlen
      refine ⟨hrec.1, ?_, ?_, ?_, ?_, ?_⟩
      · rw [hrec.2.1, hframe.1, hdrop, List.zipWith_cons_cons]
        simp
      · rw [hrec.2.2.1, hframe.2.2.2.1]
      · rw [hrec.2.2.2.1, hframe.2.1]
      · rw [hrec.2.2.2.2.1, hframe.2.2.1]
      · rw [hrec.2.2.2.2.2, hframe.2.2.2.2]

/-- C7: `upsert_samples` performs the schema evolution and the catalog
registration of featureIds exactly once for the whole batch, then
issues one row write per index in positional order, every row statement
using the same featureIds ordering, pairing `sampleIds[k]` with
`vectors[k]`. -/
theorem C7_upsert_samples_batch (c : Cursor) (sids fs : List String)
    (vectors : List (List Int)) (hA : canAlter c.db fs)
    (hF : c.db.hasFeatures = true) (hlen : sids.length ≤ vectors.length)
    (hvlen : ∀ v ∈ vectors, v.length = fs.length) :
    (upsert_samples c sids fs vectors).err = none ∧
    (upsert_samples c sids fs vectors).cur.trace =
      c.trace ++ [alter_expressions_sql fs] ++
        fs.map (fun f => upsert_feature_sql f none) ++
        List.zipWith (fun sid vec => upsert_sample_sql sid fs vec) sids vectors := by
  show (((_alter_expressions_table c fs).andThen fun c1 =>
      (_upsert_features c1 fs none).andThen fun c2 =>
        upsertSampleRows c2 fs sids vectors 0).err = none) ∧ _
  have ha := alter_ok_fields hA
  rw [Res.andThen_none _ ha.1]
  have hf := upsert_features_none_run (_alter_expressions_table c fs).cur fs
    (by rw [ha.2.2.2.1]; exact hF)
  rw [Res.andThen_none _ hf.1]
  have hcols : ∀ f ∈ fs,
      f ≠ "sampleId" ∧
      f ∈ ((_upsert_features (_alter_expressions_table c fs).cur fs none).cur.db).exprCols := by
    intro f hfm
    refine ⟨(hA.2.2.2 f hfm).1, ?_⟩
    rw [hf.2.2.2.2.1, ha.2.2.2.2.1]
    simp [hfm]
  have hrun := upsertSampleRows_ok sids
    ((_upsert_features (_alter_expressions_table c fs).cur fs none).cur) 0 vectors fs
    (by rw [hf.2.2.1, ha.2.2.1]; exact hA.1) hA.2.1 hA.2.2.1 hcols
    (by simpa using hlen) hvlen
  refine ⟨hrun.1, ?_⟩
  have hshow : (upsert_samples c sids fs vectors).cur.trace =
      (upsertSampleRows
        ((_upsert_features (_alter_expressions_table c fs).cur fs none).cur)
        fs sids vectors 0).cur.trace := by
    show (((_alter_expressions_table c fs).andThen fun c1 =>
        (_upsert_features c1 fs none).andThen fun c2 =>
          upsertSampleRows c2 fs sids vectors 0).cur.trace) = _
    rw [Res.andThen_none _ ha.1, Res.andThen_none _ hf.1]
  rw [hshow, hrun.2.1, hf.2.1, ha.2.1]
  simp

/-- C7 witness: the batch statement sequence at a concrete input. -/
theorem C7_upsert_samples_batch_witness :
    (upsert_samples cursorInit ["s1", "s2"] ["g1"] [[3], [4]]).err = none ∧
    (upsert_samples cursorInit ["s1", "s2"] ["g1"] [[3], [4]]).cur.trace =
      cursorInit.trace ++ [alter_expressions_sql ["g1"]] ++
        ["g1"].map (fun f => upsert_feature_sql f none) ++
        List.zipWith (fun sid vec => upsert_sample_sql sid ["g1"] vec)
          ["s1", "s2"] [[3], [4]] :=
  C7_upsert_samples_batch cursorInit ["s1", "s2"] ["g1"] [[3], [4]]
    (by decide) rfl (by decide) (by decide)

theorem runMatrix_eq (db : DB) (ss fs : List String) :
    runMatrix db ss fs = (db.exprRows.filter (fun r => ss.contains r.1)).map
      (fun r => (r.1, fs.map (fun f => cellLookup r.2 f))) := rfl

/-- C1 as stated fails when featureIds repeats an identifier: with
matching lengths but duplicated featureIds the schema alteration fails,
the row is never written, and the matrix query returns no row at all. -/
theorem C1_counterexample :
    ((["f", "f"] : List String).length = ([1, 2] : List Int).length) ∧
    (matrix (upsert_sample cursorInit "s" ["f", "f"] [1, 2] true).cur
        ["s"] ["f", "f"]).rows ≠ [("s", [some 1, some 2])] := by
  exact ⟨rfl, by decide⟩

/-- C1 (amended: featureIds non-empty, duplicate-free and distinct from
the key column, against a freshly initialized store): `upsert_sample`
followed by `matrix([sampleId], featureIds)` succeeds and returns
exactly one row, whose first element is the sampleId and whose remaining
elements are the upserted values in the positional order of
featureIds. -/
theorem C1_upsert_matrix_roundtrip (sid : String) (fs : List String)
    (vs : List Int) (hne : fs ≠ []) (hnd : fs.Nodup)
    (hsid : "sampleId" ∉ fs) (hlen : fs.length = vs.length) :
    (upsert_sample cursorInit sid fs vs true).err = none ∧
    (matrix (upsert_sample cursorInit sid fs vs true).cur [sid] fs).rows =
      [(sid, vs.map some)] := by
  have hA : canAlter cursorInit.db fs :=
    ⟨rfl, hne, hnd, fun f hf => ⟨fun e => hsid (e ▸ hf), List.not_mem_nil f⟩⟩
  have ha := alter_ok_fields hA
  have hf := upsert_features_none_run (_alter_expressions_table cursorInit fs).cur fs
    (by rw [ha.2.2.2.1]; rfl)
  have hcols2 : ((_upsert_features (_alter_expressions_table cursorInit fs).cur
      fs none).cur.db).exprCols = fs := by
    rw [hf.2.2.2.2.1, ha.2.2.2.2.1]
    rfl
  have hcan : canUpsertExpr ((_upsert_features
      (_alter_expressions_table cursorInit fs).cur fs none).cur.db) fs vs := by
    refine ⟨?_, hne, hnd, hlen, fun f hfm => ⟨fun e => hsid (e ▸ hfm), ?_⟩⟩
    · rw [hf.2.2.1, ha.2.2.1]; rfl
    · rw [hcols2]; exact hfm
  have hfields := upsert_expr_ok_fields sid hcan
  have hframe := upsert_sample_stmt_frame
    ((_upsert_features (_alter_expressions_table cursorInit fs).cur fs none).cur)
    sid fs vs
  have hchain : upsert_sample cursorInit sid fs vs true =
      _upsert_sample ((_upsert_features
        (_alter_expressions_table cursorInit fs).cur fs none).cur) sid fs vs := by
    show ((_alter_expressions_table cursorInit fs).andThen fun c1 =>
        (_upsert_features c1 fs none).andThen fun c2 =>
          _upsert_sample c2 sid fs vs) = _
    rw [Res.andThen_none _ ha.1, Res.andThen_none _ hf.1]
  rw [hchain]
  refine ⟨hfields.1, ?_⟩
  have hsel : canSelect ((_upsert_sample ((_upsert_features
      (_alter_expressions_table cursorInit fs).cur fs none).cur) sid fs vs).cur.db)
      [sid] fs := by
    refine ⟨?_, by simp, hne, fun f hfm => ?_⟩
    · rw [hframe.2.1, hf.2.2.1, ha.2.2.1]; rfl
    · rw [hframe.2.2.2.1, hcols2]; exact hfm
  rw [matrix_ok hsel, runMatrix_eq]
  have hrows : ((_upsert_sample ((_upsert_features
      (_alter_expressions_table cursorInit fs).cur fs none).cur) sid fs vs).cur.db).exprRows =
      [(sid, updCells [] fs vs)] := by
    rw [hfields.2, hf.2.2.2.2.2, ha.2.2.2.2.2.1]
    rfl
  rw [hrows]
  simp only [List.filter, List.contains_cons, beq_self_eq_true, Bool.true_or,
    List.map]
  rw [map_cellLookup_updCells fs vs [] hnd hlen]

/-- C1 witness: the roundtrip at a concrete input. -/
theorem C1_upsert_matrix_roundtrip_witness :
    (upsert_sample cursorInit "s1" ["g1", "g2"] [3, 7] true).err = none ∧
    (matrix (upsert_sample cursorInit "s1" ["g1", "g2"] [3, 7] true).cur
        ["s1"] ["g1", "g2"]).rows = [("s1", [some 3, some 7])] :=
  C1_upsert_matrix_roundtrip "s1" ["g1", "g2"] [3, 7]
    (by decide) (by decide) (by decide) (by decide)

theorem upsertSampleRows_fail (k : Nat) :
    ∀ (sids : List String) (c : Cursor) (i : Nat) (vectors : List (List Int))
      (fs : List String),
      c.db.hasExpressions = true → fs ≠ [] → fs.Nodup →
      (∀ f ∈ fs, f ≠ "sampleId" ∧ f ∈ c.db.exprCols) →
      (∀ j, j < k → (vectors.getD (i + j) []).length = fs.length) →
      (vectors.getD (i + k) []).length ≠ fs.length →
      k < sids.length → i + k < vectors.length →
      (upsertSampleRows c fs sids vectors i).err.isSome = true ∧
      (upsertSampleRows c fs (sids.take k) vectors i).err = none ∧
      (upsertSampleRows c fs sids vectors i).cur.db =
        (upsertSampleRows c fs (sids.take k) vectors i).cur.db ∧
      (upsertSampleRows c fs sids vectors i).cur.trace =
        (upsertSampleRows c fs (sids.take k) vectors i).cur.trace ++
          [upsert_sample_sql (sids.getD k "") fs (vectors.getD (i + k) [])] := by
  induction k with
  | zero =>
      intro sids c i vectors fs hE _hne _hnd _hcols _hgood hbad hk hik
      obtain ⟨s, rest, rfl⟩ : ∃ s rest, sids = s :: rest := by
        cases sids with
        | nil => simp at hk
        | cons s rest => exact ⟨s, rest, rfl⟩
      have hik0 : i < vectors.length := by omega
      have hvk : vectors[i]? = some vectors[i] := List.getElem?_eq_getElem hik0
      have hget : vectors.getD (i + 0) [] = vectors[i] := by
        simpa using List.getD_eq_getElem vectors [] hik0
      have hncan : ¬ canUpsertExpr c.db fs vectors[i] := by
        intro hcan
        exact hbad (by rw [hget]; exact hcan.2.2.2.1.symm)
      have herr : (_upsert_sample c s fs vectors[i]).err = some "UpsertFailed" ∧
          (_upsert_sample c s fs vectors[i]).cur.db = c.db := by
        simp [_upsert_sample, execute, execDB, renderStmt, hncan]
      have hframe := upsert_sample_stmt_frame c s fs vectors[i]
      have hfull : upsertSampleRows c fs (s :: rest) vectors i =
          _upsert_sample c s fs vectors[i] := by
        simp only [upsertSampleRows, hvk]
        exact Res.andThen_some _ herr.1
      rw [hfull]
      simp only [List.take_zero, upsertSampleRows]
      refine ⟨by rw [herr.1]; rfl, trivial, herr.2, ?_⟩
      rw [hframe.1, hget]
      rfl
  | succ k ih =>
      intro sids c i vectors fs hE hne hnd hcols hgood hbad hk hik
      obtain ⟨s, rest, rfl⟩ : ∃ s rest, sids = s :: rest := by
        cases sids with
        | nil => simp at hk
        | cons s rest => exact ⟨s, rest, rfl⟩
      have hik0 : i < vectors.length := by omega
      have hvk : vectors[i]? = some vectors[i] := List.getElem?_eq_getElem hik0
      have hget : vectors.getD (i + 0) [] = vectors[i] := by
        simpa using List.getD_eq_getElem vectors [] hik0
      have hv0 : vectors[i].length = fs.length := by
        rw [← hget]
        exact hgood 0 (Nat.succ_pos k)
      have hcan : canUpsertExpr c.db fs vectors[i] :=
        ⟨hE, hne, hnd, hv0.symm, hcols⟩
      have hfields := upsert_expr_ok_fields s hcan
      have hframe := upsert_sample_stmt_frame c s fs vectors[i]
      simp only [upsertSampleRows, hvk, List.take_succ_cons]
      rw [Res.andThen_none _ hfields.1, Res.andThen_none _ hfields.1]
      have hrec := ih rest (_upsert_sample c s fs vectors[i]).cur (i + 1) vectors fs
        (by rw [hframe.2.1]; exact hE) hne hnd
        (by rw [hframe.2.2.2.1]; exact hcols)
        (fun j hj => by
          have e : i + 1 + j = i + (j + 1) := by omega
          rw [e]
          exact hgood (j + 1) (by omega))
        (by
          have e : i + 1 + k = i + (k + 1) := by omega
          rw [e]
          exact hbad)
        (by simpa using hk)
        (by omega)
      have egd : vectors.getD (i + 1 + k) [] = vectors.getD (i + (k + 1)) [] := by
        have e : i + 1 + k = i + (k + 1) := by omega
        rw [e]
      have esid : rest.getD k "" = (s :: rest).getD (k + 1) "" := rfl
      refine ⟨hrec.1, hrec.2.1, hrec.2.2.1, ?_⟩
      rw [hrec.2.2.2, ← egd, ← esid]

/-- C9: when the row write for index k of a batch fails (its vector's
arity does not match featureIds), the batch raises, the row writes for
all indices below k have been issued and remain committed — the final
store state equals that of running the batch on just the first k
samples, with no rollback — and the failing statement itself was
issued last. -/
theorem C9_no_rollback (c : Cursor) (sids fs : List String)
    (vectors : List (List Int)) (k : Nat)
    (hA : canAlter c.db fs) (hF : c.db.hasFeatures = true)
    (hgood : ∀ j, j < k → (vectors.getD j []).length = fs.length)
    (hbad : (vectors.getD k []).length ≠ fs.length)
    (hk : k < sids.length) (hkv : k < vectors.length) :
    (upsert_samples c sids fs vectors).err.isSome = true ∧
    (upsert_samples c (sids.take k) fs vectors).err = none ∧
    (upsert_samples c sids fs vectors).cur.db =
      (upsert_samples c (sids.take k) fs vectors).cur.db ∧
    (upsert_samples c sids fs vectors).cur.trace =
      (upsert_samples c (sids.take k) fs vectors).cur.trace ++
        [upsert_sample_sql (sids.getD k "") fs (vectors.getD k [])] := by
  have ha := alter_ok_fields hA
  have hf := upsert_features_none_run (_alter_expressions_table c fs).cur fs
    (by rw [ha.2.2.2.1]; exact hF)
  have hred : ∀ ss : List String, upsert_samples c ss fs vectors =
      upsertSampleRows ((_upsert_features (_alter_expressions_table c fs).cur
        fs none).cur) fs ss vectors 0 := by
    intro ss
    show ((_alter_expressions_table c fs).andThen fun c1 =>
        (_upsert_features c1 fs none).andThen fun c2 =>
          upsertSampleRows c2 fs ss vectors 0) = _
    rw [Res.andThen_none _ ha.1, Res.andThen_none _ hf.1]
  rw [hred sids, hred (sids.take k)]
  have hfail := upsertSampleRows_fail k sids
    ((_upsert_features (_alter_expressions_table c fs).cur fs none).cur) 0 vectors fs
    (by rw [hf.2.2.1, ha.2.2.1]; exact hA.1) hA.2.1 hA.2.2.1
    (fun f hfm => ⟨(hA.2.2.2 f hfm).1, by
      rw [hf.2.2.2.2.1, ha.2.2.2.2.1]; simp [hfm]⟩)
    (fun j hj => by simpa using hgood j hj)
    (by simpa using hbad) hk (by simpa using hkv)
  refine ⟨hfail.1, hfail.2.1, hfail.2.2.1, ?_⟩
  rw [hfail.2.2.2]
  simp

/-- C9 witness: a failing second row leaves the first row's state at a
concrete input. -/
theorem C9_no_rollback_witness :
    (upsert_samples cursorInit ["s1", "s2"] ["g1"] [[3], [4, 5]]).err.isSome = true ∧
    (upsert_samples cursorInit (["s1", "s2"].take 1) ["g1"] [[3], [4, 5]]).err = none ∧
    (upsert_samples cursorInit ["s1", "s2"] ["g1"] [[3], [4, 5]]).cur.db =
      (upsert_samples cursorInit (["s1", "s2"].take 1) ["g1"] [[3], [4, 5]]).cur.db ∧
    (upsert_samples cursorInit ["s1", "s2"] ["g1"] [[3], [4, 5]]).cur.trace =
      (upsert_samples cursorInit (["s1", "s2"].take 1) ["g1"] [[3], [4, 5]]).cur.trace ++
        [upsert_sample_sql (["s1", "s2"].getD 1 "") ["g1"] ([[3], [4, 5]].getD 1 [])] :=
  C9_no_rollback cursorInit ["s1", "s2"] ["g1"] [[3], [4, 5]] 1
    (by decide) rfl (by decide) (by decide) (by decide) (by decide)

end CellDb
